import Mathlib

/-!
Verification development for the ODD/EVEN tournament system
(league manager, referees, players).

The Python sources are embedded shallowly:

* `referee-1/game_logic.py` → `get_parity`, `calculate_match_result`,
  `handle_player_timeout`.  Python dicts that are built from two distinct
  keys are modelled as insertion-ordered association lists
  (`List (String × Int)` / `List (String × StandingsData)`).
* `league-manager/scheduler.py` → `TournamentScheduler.generate_schedule`
  and `TournamentScheduler.validate_schedule`.  A Python `IndexError` /
  `KeyError` is modelled by an `Option` result (`none` = exception).
* `league-manager/standings.py` → `StandingsManager.update_from_result`
  and `StandingsManager.get_sorted_standings`.
* `league-manager/registration.py` → `RegistrationManager.register_referee`
  and `RegistrationManager.register_player`.  `secrets.token_hex` and
  `datetime.now()` are nondeterministic, so the token and timestamp are
  passed in as parameters; they play no role in the verified properties.
-/

namespace OddEven

/-- ASCII case folding for one character, as Python `str.lower()` does on
the ASCII range (all ids and choices in this system are ASCII). -/
def charLower (c : Char) : Char :=
  if 'A' ≤ c ∧ c ≤ 'Z' then Char.ofNat (c.toNat + 32) else c

/-- Python `str.lower()` on ASCII strings. -/
def strLower (s : String) : String := String.mk (s.data.map charLower)

/-- `game_logic.get_parity`: `"odd" if number % 2 == 1 else "even"`. -/
def get_parity (number : Nat) : String :=
  if number % 2 = 1 then "odd" else "even"

/-- Structured detail dict returned by `calculate_match_result`. -/
structure ResultDetails where
  drawn_number : Nat
  drawn_parity : String
  player_A_choice : String
  player_B_choice : String
  outcome : String
deriving DecidableEq, Repr

/-- Result triple `(winner, score, details)`; the Python score dict
`{player_A_id: a, player_B_id: b}` is kept as the insertion-ordered
association list `[(player_A_id, a), (player_B_id, b)]`. -/
structure MatchOutcome where
  winner : Option String
  score : List (String × Int)
  details : ResultDetails
deriving DecidableEq, Repr

/-- `game_logic.calculate_match_result`. -/
def calculate_match_result (player_A_id player_A_choice player_B_id player_B_choice : String)
    (drawn_number : Nat) : MatchOutcome :=
  let drawn_parity := get_parity drawn_number
  let choice_A := strLower player_A_choice
  let choice_B := strLower player_B_choice
  if choice_A = choice_B then
    { winner := none
      score := [(player_A_id, 1), (player_B_id, 1)]
      details := { drawn_number := drawn_number, drawn_parity := drawn_parity
                   player_A_choice := choice_A, player_B_choice := choice_B
                   outcome := "DRAW" } }
  else if choice_A = drawn_parity then
    { winner := some player_A_id
      score := [(player_A_id, 3), (player_B_id, 0)]
      details := { drawn_number := drawn_number, drawn_parity := drawn_parity
                   player_A_choice := choice_A, player_B_choice := choice_B
                   outcome := player_A_id ++ " WINS" } }
  else
    { winner := some player_B_id
      score := [(player_A_id, 0), (player_B_id, 3)]
      details := { drawn_number := drawn_number, drawn_parity := drawn_parity
                   player_A_choice := choice_A, player_B_choice := choice_B
                   outcome := player_B_id ++ " WINS" } }

/-- Forfeit outcomes carry only an outcome tag in their details dict;
the numeric fields of `ResultDetails` are absent in Python, so the
timeout path returns this smaller record. -/
structure TimeoutDetails where
  outcome : String
deriving DecidableEq, Repr

/-- Result triple of `handle_player_timeout`. -/
structure TimeoutOutcome where
  winner : Option String
  score : List (String × Int)
  details : TimeoutDetails
deriving DecidableEq, Repr

/-- `game_logic.handle_player_timeout`. -/
def handle_player_timeout (player_A_id player_B_id : String)
    (player_A_responded player_B_responded : Bool) : TimeoutOutcome :=
  if ¬player_A_responded ∧ ¬player_B_responded then
    { winner := none
      score := [(player_A_id, 0), (player_B_id, 0)]
      details := { outcome := "DOUBLE_FORFEIT" } }
  else if ¬player_A_responded then
    { winner := some player_B_id
      score := [(player_A_id, 0), (player_B_id, 3)]
      details := { outcome := player_A_id ++ "_FORFEIT" } }
  else
    { winner := some player_A_id
      score := [(player_A_id, 3), (player_B_id, 0)]
      details := { outcome := player_B_id ++ "_FORFEIT" } }

/-- C1 counterexample: with the distinct (lower-cased) choices `"foo"` and
`"bar"` and drawn number `2`, `calculate_match_result` declares `P02` the
winner with score 3 even though `P02`'s lower-cased choice `"bar"` is not
the drawn parity `"even"` (nor is `P01`'s) — so it is not true for every
pair of choice strings that the winner is "the player whose lowercased
choice equals the parity of the drawn number". -/
theorem C1_claim_counterexample :
    strLower "foo" ≠ strLower "bar" ∧
    (calculate_match_result "P01" "foo" "P02" "bar" 2).winner = some "P02" ∧
    (calculate_match_result "P01" "foo" "P02" "bar" 2).score = [("P01", 0), ("P02", 3)] ∧
    strLower "bar" ≠ get_parity 2 ∧ strLower "foo" ≠ get_parity 2 := by decide

/-- C1 (amended): for distinct players `A ≠ B`, any choice strings and any
drawn number in `[1,10]`: if the lower-cased choices are equal the match is
a draw with score `{A:1, B:1}` regardless of the drawn number; otherwise,
if `A`'s lower-cased choice equals the drawn parity then `A` wins `3–0`,
and in every other case (including both choices failing to match the drawn
parity) `B` wins `3–0`. -/
theorem C1_calculate_match_result_characterization
    (A cA B cB : String) (n : Nat) (hAB : A ≠ B) (h1 : 1 ≤ n) (h10 : n ≤ 10) :
    (strLower cA = strLower cB →
      (calculate_match_result A cA B cB n).winner = none ∧
      (calculate_match_result A cA B cB n).score = [(A, 1), (B, 1)]) ∧
    (strLower cA ≠ strLower cB →
      (strLower cA = get_parity n →
        (calculate_match_result A cA B cB n).winner = some A ∧
        (calculate_match_result A cA B cB n).score = [(A, 3), (B, 0)]) ∧
      (strLower cA ≠ get_parity n →
        (calculate_match_result A cA B cB n).winner = some B ∧
        (calculate_match_result A cA B cB n).score = [(A, 0), (B, 3)])) := by
  constructor
  · intro h
    simp [calculate_match_result, h]
  · intro h
    constructor
    · intro h2
      rw [h2] at h
      simp [calculate_match_result, h2, h]
    · intro h2
      simp [calculate_match_result, h, h2]

/-- C1 witness: the amended characterization applied at a concrete match. -/
theorem C1_calculate_match_result_characterization_witness :
    (calculate_match_result "P01" "odd" "P02" "even" 4).winner = some "P02" ∧
    (calculate_match_result "P01" "odd" "P02" "even" 4).score = [("P01", 0), ("P02", 3)] :=
  ((C1_calculate_match_result_characterization "P01" "odd" "P02" "even" 4
      (by decide) (by decide) (by decide)).2 (by decide)).2 (by decide)

/-- C2: for distinct players, a double timeout is a `0–0` double forfeit
with no winner, and a single timeout gives the responder a `3–0` win. -/
theorem C2_handle_player_timeout_spec (A B : String) (hAB : A ≠ B) (rA rB : Bool) :
    (rA = false → rB = false →
      (handle_player_timeout A B rA rB).winner = none ∧
      (handle_player_timeout A B rA rB).score = [(A, 0), (B, 0)]) ∧
    (rA = true → rB = false →
      (handle_player_timeout A B rA rB).winner = some A ∧
      (handle_player_timeout A B rA rB).score = [(A, 3), (B, 0)]) ∧
    (rA = false → rB = true →
      (handle_player_timeout A B rA rB).winner = some B ∧
      (handle_player_timeout A B rA rB).score = [(A, 0), (B, 3)]) := by
  cases rA <;> cases rB <;> simp [handle_player_timeout]

/-- C2 witness: the timeout rule applied where only `P01` responded. -/
theorem C2_handle_player_timeout_spec_witness :
    (handle_player_timeout "P01" "P02" true false).winner = some "P01" ∧
    (handle_player_timeout "P01" "P02" true false).score = [("P01", 3), ("P02", 0)] :=
  (C2_handle_player_timeout_spec "P01" "P02" (by decide) true false).2.1 rfl rfl

/-- C4 counterexample: a decided win produces the score map
`{P01: 0, P02: 3}`, whose values sum to `3` — not `6`, `2` or `0`.  The
winner gets 3 and the loser 0, so a win is a `3/0` split summing to `3`,
never a `3/3` split summing to `6`. -/
theorem C4_claim_counterexample :
    ((calculate_match_result "P01" "odd" "P02" "even" 4).score.map Prod.snd).sum = 3 ∧
    ¬(((calculate_match_result "P01" "odd" "P02" "even" 4).score.map Prod.snd).sum = 6 ∨
      ((calculate_match_result "P01" "odd" "P02" "even" 4).score.map Prod.snd).sum = 2 ∨
      ((calculate_match_result "P01" "odd" "P02" "even" 4).score.map Prod.snd).sum = 0) := by
  decide

/-- C4 (amended): every score map produced by `calculate_match_result` or
`handle_player_timeout` for a match between distinct players has exactly
the two player ids as keys (two keys, no duplicates), and its values sum
to `3` (a 3/0 win split), `2` (a 1/1 draw) or `0` (double forfeit). -/
theorem C4_score_map_invariant (A cA B cB : String) (n : Nat) (rA rB : Bool)
    (hAB : A ≠ B) :
    (((calculate_match_result A cA B cB n).score.map Prod.fst) = [A, B] ∧
      ((calculate_match_result A cA B cB n).score.map Prod.fst).Nodup ∧
      (((calculate_match_result A cA B cB n).score.map Prod.snd).sum = 3 ∨
        ((calculate_match_result A cA B cB n).score.map Prod.snd).sum = 2 ∨
        ((calculate_match_result A cA B cB n).score.map Prod.snd).sum = 0)) ∧
    (((handle_player_timeout A B rA rB).score.map Prod.fst) = [A, B] ∧
      ((handle_player_timeout A B rA rB).score.map Prod.fst).Nodup ∧
      (((handle_player_timeout A B rA rB).score.map Prod.snd).sum = 3 ∨
        ((handle_player_timeout A B rA rB).score.map Prod.snd).sum = 2 ∨
        ((handle_player_timeout A B rA rB).score.map Prod.snd).sum = 0)) := by
  unfold calculate_match_result handle_player_timeout
  by_cases h1 : strLower cA = strLower cB
  · cases rA <;> cases rB <;> simp [h1, hAB]
  · by_cases h2 : strLower cA = get_parity n
    · rw [h2] at h1
      cases rA <;> cases rB <;> simp [h1, h2, hAB]
    · cases rA <;> cases rB <;> simp [h1, h2, hAB]

/-- C4 witness: the invariant at a concrete drawn match and double forfeit. -/
theorem C4_score_map_invariant_witness :
    ((calculate_match_result "P01" "odd" "P02" "odd" 5).score.map Prod.fst) =
        ["P01", "P02"] ∧
    (((handle_player_timeout "P01" "P02" false false).score.map Prod.snd).sum = 3 ∨
      ((handle_player_timeout "P01" "P02" false false).score.map Prod.snd).sum = 2 ∨
      ((handle_player_timeout "P01" "P02" false false).score.map Prod.snd).sum = 0) :=
  ⟨(C4_score_map_invariant "P01" "odd" "P02" "odd" 5 false false (by decide)).1.1,
    (C4_score_map_invariant "P01" "odd" "P02" "odd" 5 false false (by decide)).2.2.2⟩

/-! ## Standings ledger (`league-manager/standings.py`) -/

/-- `models.StandingsData`: per-player tracking record. -/
structure StandingsData where
  played : Nat := 0
  wins : Nat := 0
  draws : Nat := 0
  losses : Nat := 0
  points : Nat := 0
  display_name : String := ""
deriving DecidableEq, Repr

/-- `models.MatchResult` (the `details` dict is irrelevant to the ledger
and omitted).  The score dict is an insertion-ordered association list. -/
structure MatchResult where
  round_id : String
  match_id : String
  winner : Option String
  score : List (String × Int)
deriving DecidableEq, Repr

/-- The `StandingsManager.standings` dict: insertion-ordered association
list from player id to `StandingsData`. -/
abbrev StandingsMap := List (String × StandingsData)

/-- `some_dict[k] += …` / `some_dict[k].<field> += …`: mutate the value
stored under `k` in place; a missing key is Python's `KeyError`,
modelled as `none`. -/
def modifyEntry {β : Type} (m : List (String × β)) (k : String)
    (f : β → β) : Option (List (String × β)) :=
  match m with
  | [] => none
  | (k', v) :: rest =>
    if k' = k then some ((k', f v) :: rest)
    else (modifyEntry rest k f).map (fun r => (k', v) :: r)

/-- `StandingsManager.initialize_player`. -/
def initialize_player (m : StandingsMap) (player_id display_name : String) : StandingsMap :=
  m ++ [(player_id, { display_name := display_name })]

/-- `StandingsManager.update_from_result`.  Python's early `return` on a
malformed score dict is `some standings` (state unchanged, no exception);
a `KeyError` on `self.standings[…]` is `none`. -/
def update_from_result (standings : StandingsMap) (result : MatchResult) :
    Option StandingsMap :=
  match result.score.map Prod.fst with
  | [player_a, player_b] => do
    let s1 ← modifyEntry standings player_a (fun d => { d with played := d.played + 1 })
    let s2 ← modifyEntry s1 player_b (fun d => { d with played := d.played + 1 })
    if result.winner = none ∨ result.winner = some "" then do
      let s3 ← modifyEntry s2 player_a
        (fun d => { d with draws := d.draws + 1, points := d.points + 1 })
      modifyEntry s3 player_b
        (fun d => { d with draws := d.draws + 1, points := d.points + 1 })
    else if result.winner = some player_a then do
      let s3 ← modifyEntry s2 player_a
        (fun d => { d with wins := d.wins + 1, points := d.points + 3 })
      modifyEntry s3 player_b (fun d => { d with losses := d.losses + 1 })
    else if result.winner = some player_b then do
      let s3 ← modifyEntry s2 player_b
        (fun d => { d with wins := d.wins + 1, points := d.points + 3 })
      modifyEntry s3 player_a (fun d => { d with losses := d.losses + 1 })
    else
      some s2
  | _ => some standings

/-- `models.PlayerStanding`: one row of the ranked view. -/
structure PlayerStanding where
  rank : Nat
  player_id : String
  display_name : String
  played : Nat
  wins : Nat
  draws : Nat
  losses : Nat
  points : Nat
deriving DecidableEq, Repr

/-- The sort key comparison of
`standings_list.sort(key=lambda x: (points, wins), reverse=True)`:
entry `x` may precede entry `y` exactly when `key x ≥ key y`
lexicographically. -/
def standingsKeyGE (x y : String × StandingsData) : Prop :=
  y.2.points < x.2.points ∨ (x.2.points = y.2.points ∧ y.2.wins ≤ x.2.wins)

instance : DecidableRel standingsKeyGE := fun x y => by
  unfold standingsKeyGE; infer_instance

/-- One step of the stable descending sort: insert `x` in front of the
first element it is `standingsKeyGE`-above-or-equal to.  Elements passed
over are strictly greater, so equal-key elements keep their input order —
the stability guarantee of Python's `list.sort`. -/
def insertDesc (x : String × StandingsData) :
    List (String × StandingsData) → List (String × StandingsData)
  | [] => [x]
  | y :: ys => if standingsKeyGE x y then x :: y :: ys else y :: insertDesc x ys

/-- The stable sort by `(points, wins)` descending. -/
def sortStandings (l : List (String × StandingsData)) : List (String × StandingsData) :=
  l.foldr insertDesc []

/-- The `for rank, standing in enumerate(standings_list, start=1)` loop. -/
def assignRanks : Nat → List (String × StandingsData) → List PlayerStanding
  | _, [] => []
  | rank, (pid, d) :: rest =>
    { rank := rank, player_id := pid, display_name := d.display_name
      played := d.played, wins := d.wins, draws := d.draws, losses := d.losses
      points := d.points } :: assignRanks (rank + 1) rest

/-- `StandingsManager.get_sorted_standings`. -/
def get_sorted_standings (standings : StandingsMap) : List PlayerStanding :=
  assignRanks 1 (sortStandings standings)

theorem modifyEntry_isSome_of_mem {β : Type} {m : List (String × β)} {k : String}
    (f : β → β) (h : k ∈ m.map Prod.fst) :
    ∃ m', modifyEntry m k f = some m' := by
  induction m with
  | nil => simp at h
  | cons y rest ih =>
    obtain ⟨k', v⟩ := y
    by_cases hk : k' = k
    · exact ⟨(k', f v) :: rest, by simp [modifyEntry, hk]⟩
    · simp only [List.map_cons, List.mem_cons] at h
      rcases h with h | h
      · exact absurd h.symm hk
      · obtain ⟨r', hr'⟩ := ih h
        exact ⟨(k', v) :: r', by simp [modifyEntry, hk, hr']⟩

theorem modifyEntry_eq_none_of_not_mem {β : Type} {m : List (String × β)} {k : String}
    (f : β → β) (h : k ∉ m.map Prod.fst) :
    modifyEntry m k f = none := by
  induction m with
  | nil => simp [modifyEntry]
  | cons y rest ih =>
    obtain ⟨k', v⟩ := y
    simp only [List.map_cons, List.mem_cons, not_or] at h
    have hk : ¬k' = k := fun e => h.1 e.symm
    simp [modifyEntry, hk, ih h.2]

theorem modifyEntry_keys {β : Type} {m m' : List (String × β)} {k : String}
    {f : β → β} (h : modifyEntry m k f = some m') :
    m'.map Prod.fst = m.map Prod.fst := by
  induction m generalizing m' with
  | nil => simp [modifyEntry] at h
  | cons y rest ih =>
    obtain ⟨k', v⟩ := y
    by_cases hk : k' = k
    · simp only [modifyEntry, if_pos hk, Option.some_inj] at h
      simp [← h]
    · simp only [modifyEntry, if_neg hk, Option.map_eq_some'] at h
      obtain ⟨r', hr', hm'⟩ := h
      simp [← hm', ih hr']

theorem modifyEntry_lookup {β : Type} {m m' : List (String × β)} {k : String}
    {f : β → β} (h : modifyEntry m k f = some m')
    (p : String) :
    m'.lookup p = if p = k then (m.lookup p).map f else m.lookup p := by
  induction m generalizing m' with
  | nil => simp [modifyEntry] at h
  | cons y rest ih =>
    obtain ⟨k', v⟩ := y
    by_cases hk : k' = k
    · simp only [modifyEntry, if_pos hk, Option.some_inj] at h
      subst hk
      by_cases hp : p = k'
      · simp [← h, List.lookup, hp]
      · simp [← h, List.lookup, hp, beq_eq_false_iff_ne.mpr hp]
    · simp only [modifyEntry, if_neg hk, Option.map_eq_some'] at h
      obtain ⟨r', hr', hm'⟩ := h
      by_cases hp : p = k'
      · have hpk : ¬p = k := fun e => hk (hp ▸ e)
        simp [← hm', List.lookup, hp, hpk, hk]
      · simp [← hm', List.lookup, beq_eq_false_iff_ne.mpr hp, ih hr']

/-- C5 counterexample: for a result whose `winner` (`"P99"`) is neither
of the two score-map keys, `update_from_result` does *not* leave the
standings unchanged: it has already incremented the `played` counter of
both keyed players before the winner check, so only the win/draw/points
update is skipped. -/
theorem C5_claim_counterexample :
    (([("P01", 3), ("P02", 0)] : List (String × Int)).map Prod.fst).length = 2 ∧
    "P99" ∉ ([("P01", 3), ("P02", 0)] : List (String × Int)).map Prod.fst ∧
    update_from_result [("P01", {}), ("P02", {})]
        { round_id := "R1", match_id := "R1M1", winner := some "P99"
          score := [("P01", 3), ("P02", 0)] } =
      some [("P01", { played := 1 }), ("P02", { played := 1 })] ∧
    ([("P01", ({ played := 1 } : StandingsData)), ("P02", { played := 1 })] :
        StandingsMap) ≠ [("P01", {}), ("P02", {})] := by decide

/-- C5 (amended): a result whose score map does not have exactly two keys
leaves the standings entirely unchanged and raises nothing; a result with
two keys but a non-empty `winner` that is neither key raises nothing and
skips the win/draw/loss/points update, but the `played` counter of both
keyed players has already been incremented — only that field changes. -/
theorem C5_invalid_result_handling (st : StandingsMap) (result : MatchResult) :
    ((result.score.map Prod.fst).length ≠ 2 →
      update_from_result st result = some st) ∧
    (∀ a b w, result.score.map Prod.fst = [a, b] → a ≠ b →
      result.winner = some w → w ≠ "" → w ≠ a → w ≠ b →
      a ∈ st.map Prod.fst → b ∈ st.map Prod.fst →
      ∃ st', update_from_result st result = some st' ∧
        st'.map Prod.fst = st.map Prod.fst ∧
        (∀ p, p ≠ a → p ≠ b → st'.lookup p = st.lookup p) ∧
        st'.lookup a = (st.lookup a).map (fun d => { d with played := d.played + 1 }) ∧
        st'.lookup b = (st.lookup b).map (fun d => { d with played := d.played + 1 })) := by
  constructor
  · intro hlen
    rcases hsc : result.score.map Prod.fst with _ | ⟨x, _ | ⟨y, _ | ⟨z, rest⟩⟩⟩ <;>
      simp [update_from_result, hsc] <;> simp [hsc] at hlen
  · intro a b w hsc hab hw hw0 hwa hwb ha hb
    obtain ⟨s1, hs1⟩ := modifyEntry_isSome_of_mem
      (fun d => { d with played := d.played + 1 }) ha
    have hk1 : s1.map Prod.fst = st.map Prod.fst := modifyEntry_keys hs1
    obtain ⟨s2, hs2⟩ := modifyEntry_isSome_of_mem
      (fun d => { d with played := d.played + 1 }) (hk1 ▸ hb)
    have hk2 : s2.map Prod.fst = s1.map Prod.fst := modifyEntry_keys hs2
    refine ⟨s2, ?_, hk2.trans hk1, ?_, ?_, ?_⟩
    · simp [update_from_result, hsc, hs1, hs2, hw, hw0, hwa, hwb]
    · intro p hpa hpb
      rw [modifyEntry_lookup hs2 p, if_neg hpb, modifyEntry_lookup hs1 p, if_neg hpa]
    · rw [modifyEntry_lookup hs2 a, if_neg hab, modifyEntry_lookup hs1 a, if_pos rfl]
    · rw [modifyEntry_lookup hs2 b, if_pos rfl, modifyEntry_lookup hs1 b,
        if_neg (fun e => hab e.symm)]

/-- C5 witness: both amended behaviours at concrete inputs — a one-key
score map is skipped in full, and an unknown-winner result only bumps
`played`. -/
theorem C5_invalid_result_handling_witness :
    update_from_result [("P01", {}), ("P02", {})]
        { round_id := "R1", match_id := "R1M1", winner := some "P01"
          score := [("P01", 3)] } =
      some [("P01", {}), ("P02", {})] ∧
    ∃ st', update_from_result [("P01", {}), ("P02", {})]
        { round_id := "R1", match_id := "R1M1", winner := some "P99"
          score := [("P01", 3), ("P02", 0)] } = some st' ∧
      st'.map Prod.fst = (([("P01", {}), ("P02", {})] : StandingsMap)).map Prod.fst ∧
      (∀ p, p ≠ "P01" → p ≠ "P02" →
        st'.lookup p = (([("P01", {}), ("P02", {})] : StandingsMap)).lookup p) ∧
      st'.lookup "P01" = ((([("P01", {}), ("P02", {})] : StandingsMap)).lookup "P01").map
        (fun d => { d with played := d.played + 1 }) ∧
      st'.lookup "P02" = ((([("P01", {}), ("P02", {})] : StandingsMap)).lookup "P02").map
        (fun d => { d with played := d.played + 1 }) :=
  ⟨(C5_invalid_result_handling [("P01", {}), ("P02", {})]
      { round_id := "R1", match_id := "R1M1", winner := some "P01"
        score := [("P01", 3)] }).1 (by decide),
    (C5_invalid_result_handling [("P01", {}), ("P02", {})]
      { round_id := "R1", match_id := "R1M1", winner := some "P99"
        score := [("P01", 3), ("P02", 0)] }).2 "P01" "P02" "P99"
      (by decide) (by decide) rfl (by decide) (by decide) (by decide)
      (by decide) (by decide)⟩

/-- C10: `update_from_result` presupposes that both score-map keys were
initialized: if the score map has exactly two (distinct) keys and either
one is missing from the standings dict, the `played` increment raises
`KeyError` (modelled as `none`) instead of logging and skipping. -/
theorem C10_update_requires_initialized_players (st : StandingsMap)
    (result : MatchResult) (a b : String)
    (hsc : result.score.map Prod.fst = [a, b]) (hab : a ≠ b)
    (hmiss : a ∉ st.map Prod.fst ∨ b ∉ st.map Prod.fst) :
    update_from_result st result = none := by
  rcases hmiss with hma | hmb
  · simp [update_from_result, hsc,
      modifyEntry_eq_none_of_not_mem (fun d => { d with played := d.played + 1 }) hma]
  · by_cases hma : a ∈ st.map Prod.fst
    · obtain ⟨s1, hs1⟩ := modifyEntry_isSome_of_mem
        (fun d => { d with played := d.played + 1 }) hma
      have hk1 : s1.map Prod.fst = st.map Prod.fst := modifyEntry_keys hs1
      simp [update_from_result, hsc, hs1,
        modifyEntry_eq_none_of_not_mem (fun d => { d with played := d.played + 1 })
          (hk1 ▸ hmb)]
    · simp [update_from_result, hsc,
        modifyEntry_eq_none_of_not_mem (fun d => { d with played := d.played + 1 }) hma]

/-- C10 witness: reporting a result for the uninitialized player `P02`
raises (`none`). -/
theorem C10_update_requires_initialized_players_witness :
    update_from_result [("P01", {})]
      { round_id := "R1", match_id := "R1M1", winner := some "P01"
        score := [("P01", 3), ("P02", 0)] } = none :=
  C10_update_requires_initialized_players [("P01", {})]
    { round_id := "R1", match_id := "R1M1", winner := some "P01"
      score := [("P01", 3), ("P02", 0)] } "P01" "P02" rfl (by decide)
    (Or.inr (by decide))

theorem standingsKeyGE_total {x y : String × StandingsData}
    (h : ¬standingsKeyGE x y) : standingsKeyGE y x := by
  unfold standingsKeyGE at *
  omega

theorem standingsKeyGE_trans {x y z : String × StandingsData}
    (h1 : standingsKeyGE x y) (h2 : standingsKeyGE y z) : standingsKeyGE x z := by
  unfold standingsKeyGE at *
  omega

theorem standingsKeyGE_of_eq_key {x y : String × StandingsData}
    (hp : x.2.points = y.2.points) (hw : x.2.wins = y.2.wins) :
    standingsKeyGE x y := by
  unfold standingsKeyGE
  omega

theorem mem_insertDesc {z x : String × StandingsData}
    {l : List (String × StandingsData)} :
    z ∈ insertDesc x l ↔ z = x ∨ z ∈ l := by
  induction l with
  | nil => simp [insertDesc]
  | cons y ys ih =>
    by_cases h : standingsKeyGE x y
    · simp [insertDesc, h]
    · simp [insertDesc, h, ih]
      tauto

theorem pairwise_insertDesc {x : String × StandingsData}
    {l : List (String × StandingsData)}
    (h : l.Pairwise standingsKeyGE) :
    (insertDesc x l).Pairwise standingsKeyGE := by
  induction l with
  | nil => simp [insertDesc]
  | cons y ys ih =>
    rcases List.pairwise_cons.mp h with ⟨hy, hys⟩
    by_cases hxy : standingsKeyGE x y
    · simp only [insertDesc, if_pos hxy]
      refine List.pairwise_cons.mpr ⟨?_, h⟩
      intro z hz
      rcases List.mem_cons.mp hz with rfl | hz
      · exact hxy
      · exact standingsKeyGE_trans hxy (hy z hz)
    · simp only [insertDesc, if_neg hxy]
      refine List.pairwise_cons.mpr ⟨?_, ih hys⟩
      intro z hz
      rcases mem_insertDesc.mp hz with rfl | hz
      · exact standingsKeyGE_total hxy
      · exact hy z hz

theorem sorted_sortStandings (l : List (String × StandingsData)) :
    (sortStandings l).Pairwise standingsKeyGE := by
  induction l with
  | nil => simp [sortStandings]
  | cons y ys ih => exact pairwise_insertDesc ih

theorem length_insertDesc (x : String × StandingsData)
    (l : List (String × StandingsData)) :
    (insertDesc x l).length = l.length + 1 := by
  induction l with
  | nil => simp [insertDesc]
  | cons y ys ih =>
    by_cases h : standingsKeyGE x y <;> simp [insertDesc, h, ih]

theorem length_sortStandings (l : List (String × StandingsData)) :
    (sortStandings l).length = l.length := by
  induction l with
  | nil => simp [sortStandings]
  | cons y ys ih => simpa [sortStandings, length_insertDesc] using ih

/-- Membership of one `(points, wins)` equivalence class, as a Boolean
predicate on ledger entries. -/
def classP (pts w : Nat) (x : String × StandingsData) : Bool :=
  x.2.points == pts && x.2.wins == w

theorem filter_insertDesc_class (pts w : Nat) (x : String × StandingsData)
    (l : List (String × StandingsData)) :
    (insertDesc x l).filter (classP pts w) =
      if classP pts w x then x :: l.filter (classP pts w)
      else l.filter (classP pts w) := by
  induction l with
  | nil => cases hx : classP pts w x <;> simp [insertDesc, List.filter, hx]
  | cons y ys ih =>
    by_cases hxy : standingsKeyGE x y
    · by_cases hx : classP pts w x = true <;>
        simp [insertDesc, hxy, List.filter, hx]
    · have hnot : classP pts w x = true → classP pts w y = false := by
        intro hx
        by_contra hy
        simp only [Bool.not_eq_false] at hy
        simp only [classP, Bool.and_eq_true, beq_iff_eq] at hx hy
        exact hxy (standingsKeyGE_of_eq_key (hx.1.trans hy.1.symm)
          (hx.2.trans hy.2.symm))
      by_cases hx : classP pts w x = true
      · simp [insertDesc, hxy, List.filter, hx, hnot hx, ih]
      · by_cases hy : classP pts w y = true <;>
          simp [insertDesc, hxy, List.filter, hx, hy, ih]

theorem filter_sortStandings_class (pts w : Nat)
    (l : List (String × StandingsData)) :
    (sortStandings l).filter (classP pts w) = l.filter (classP pts w) := by
  induction l with
  | nil => simp [sortStandings]
  | cons y ys ih =>
    show (insertDesc y (sortStandings ys)).filter (classP pts w) = _
    rw [filter_insertDesc_class]
    by_cases hy : classP pts w y = true <;> simp [List.filter, hy, ih]

theorem mem_assignRanks {e : PlayerStanding} {n : Nat}
    {l : List (String × StandingsData)} (h : e ∈ assignRanks n l) :
    ∃ y ∈ l, e.points = y.2.points ∧ e.wins = y.2.wins := by
  induction l generalizing n with
  | nil => simp [assignRanks] at h
  | cons y ys ih =>
    obtain ⟨pid, d⟩ := y
    rcases List.mem_cons.mp h with rfl | h
    · exact ⟨(pid, d), List.mem_cons_self _ _, rfl, rfl⟩
    · obtain ⟨z, hz, hez⟩ := ih h
      exact ⟨z, List.mem_cons_of_mem _ hz, hez⟩

theorem pairwise_assignRanks (n : Nat) (l : List (String × StandingsData))
    (h : l.Pairwise standingsKeyGE) :
    (assignRanks n l).Pairwise (fun e1 e2 =>
      e2.points < e1.points ∨ (e1.points = e2.points ∧ e2.wins ≤ e1.wins)) := by
  induction l generalizing n with
  | nil => simp [assignRanks]
  | cons y ys ih =>
    obtain ⟨pid, d⟩ := y
    rcases List.pairwise_cons.mp h with ⟨hy, hys⟩
    refine List.pairwise_cons.mpr ⟨?_, ih (n + 1) hys⟩
    intro e he
    obtain ⟨z, hz, hep, hew⟩ := mem_assignRanks he
    have := hy z hz
    unfold standingsKeyGE at this
    simp only [hep, hew]
    exact this

theorem assignRanks_filter_map (pts w : Nat) (n : Nat)
    (l : List (String × StandingsData)) :
    ((assignRanks n l).filter (fun e => e.points == pts && e.wins == w)).map
        (fun e => e.player_id) =
      (l.filter (classP pts w)).map Prod.fst := by
  induction l generalizing n with
  | nil => simp [assignRanks]
  | cons y ys ih =>
    obtain ⟨pid, d⟩ := y
    by_cases hc : classP pts w (pid, d) = true
    · have hc' : (d.points == pts && d.wins == w) = true := hc
      simp [assignRanks, List.filter, hc, hc', ih]
    · have hc' : (d.points == pts && d.wins == w) = false := by
        simpa [classP] using hc
      simp [assignRanks, List.filter, hc, hc', ih]

theorem assignRanks_map_rank (n : Nat) (l : List (String × StandingsData)) :
    (assignRanks n l).map (fun e => e.rank) = List.range' n l.length := by
  induction l generalizing n with
  | nil => simp [assignRanks]
  | cons y ys ih =>
    obtain ⟨pid, d⟩ := y
    simp [assignRanks, List.range', ih]

/-- C7: `get_sorted_standings` returns the ledger entries sorted by
points descending then wins descending; within every `(points, wins)`
class the entries appear in ledger insertion order (the sort is stable);
and ranks are assigned positionally `1..N`, so every entry gets a
distinct rank with no gaps for ties. -/
theorem C7_get_sorted_standings_spec (st : StandingsMap) :
    (get_sorted_standings st).Pairwise (fun e1 e2 =>
      e2.points < e1.points ∨ (e1.points = e2.points ∧ e2.wins ≤ e1.wins)) ∧
    (∀ pts w, ((get_sorted_standings st).filter
          (fun e => e.points == pts && e.wins == w)).map (fun e => e.player_id) =
        (st.filter (classP pts w)).map Prod.fst) ∧
    (get_sorted_standings st).map (fun e => e.rank) = List.range' 1 st.length := by
  refine ⟨?_, ?_, ?_⟩
  · exact pairwise_assignRanks 1 _ (sorted_sortStandings st)
  · intro pts w
    rw [get_sorted_standings, assignRanks_filter_map, filter_sortStandings_class]
  · rw [get_sorted_standings, assignRanks_map_rank, length_sortStandings]

/-- C7 witness: the ranked view of a four-player ledger in which `P02`
and `P03` tie on points and wins (`P03` was inserted first and stays
ahead), with ranks `1,2,3,4`. -/
theorem C7_get_sorted_standings_spec_witness :
    ((get_sorted_standings
        [("P04", {}), ("P03", { points := 3, wins := 1, draws := 0 }),
         ("P02", { points := 3, wins := 1, draws := 0 }),
         ("P01", { points := 6, wins := 2 })]).filter
        (fun e => e.points == 3 && e.wins == 1)).map (fun e => e.player_id) =
      ["P03", "P02"] ∧
    (get_sorted_standings
        [("P04", {}), ("P03", { points := 3, wins := 1, draws := 0 }),
         ("P02", { points := 3, wins := 1, draws := 0 }),
         ("P01", { points := 6, wins := 2 })]).map (fun e => e.rank) =
      List.range' 1 4 := by
  constructor
  · rw [(C7_get_sorted_standings_spec _).2.1 3 1]
    decide
  · exact (C7_get_sorted_standings_spec _).2.2

/-! ## Tournament scheduler (`league-manager/scheduler.py`) -/

/-- Lexicographic `≤` on character lists, as Python compares strings
(code-point by code-point, shorter prefix first). -/
def lexLe : List Char → List Char → Bool
  | [], _ => true
  | _ :: _, [] => false
  | a :: as, b :: bs => if a < b then true else if b < a then false else lexLe as bs

/-- Python `s <= t` on strings: lexicographic comparison of the
character sequences. -/
def strLeB (s t : String) : Bool := lexLe s.data t.data

theorem lexLe_iff_not_lex (s t : List Char) :
    lexLe s t = true ↔ ¬ List.Lex (· < ·) t s := by
  induction s generalizing t with
  | nil =>
    cases t with
    | nil => simp [lexLe]
    | cons b bs => simp [lexLe]
  | cons a as ih =>
    cases t with
    | nil =>
      apply iff_of_false
      · simp [lexLe]
      · intro h
        exact h List.Lex.nil
    | cons b bs =>
      by_cases hab : a < b
      · apply iff_of_true
        · simp [lexLe, hab]
        · intro hlex
          cases hlex with
          | rel h => exact lt_asymm hab h
          | cons h => exact absurd rfl (ne_of_gt hab)
      · by_cases hba : b < a
        · apply iff_of_false
          · simp [lexLe, hab, hba]
          · intro h
            exact h (List.Lex.rel hba)
        · have heq : a = b := le_antisymm (le_of_not_lt hba) (le_of_not_lt hab)
          subst heq
          have hstep : lexLe (a :: as) (a :: bs) = lexLe as bs := by
            simp [lexLe, lt_irrefl]
          rw [hstep, ih bs]
          constructor
          · intro h hlex
            cases hlex with
            | rel hr => exact absurd hr (lt_irrefl a)
            | cons h2 => exact h h2
          · intro h hlex
            exact h (List.Lex.cons hlex)

/-- The computable comparison agrees with the `String` order. -/
theorem strLeB_iff_le (s t : String) : strLeB s t = true ↔ s ≤ t := by
  rw [strLeB, lexLe_iff_not_lex]
  constructor
  · intro h
    by_contra hle
    rw [String.le_iff_toList_le] at hle
    exact h (lt_of_not_le hle)
  · intro h hlex
    rw [String.le_iff_toList_le] at h
    exact not_lt_of_le h hlex

theorem strLeB_eq_false_iff (s t : String) : strLeB s t = false ↔ ¬s ≤ t := by
  rw [← strLeB_iff_le]
  cases strLeB s t <;> simp

/-- One insertion step of Python's `sorted` on strings (lexicographic by
code point, which is exactly Lean's `String` order). -/
def insertSorted (x : String) : List String → List String
  | [] => [x]
  | y :: ys => if strLeB x y then x :: y :: ys else y :: insertSorted x ys

/-- Python `sorted(list_of_strings)`. -/
def sortStrings (l : List String) : List String := l.foldr insertSorted []

theorem insertSorted_perm (x : String) (l : List String) :
    (insertSorted x l).Perm (x :: l) := by
  induction l with
  | nil => exact List.Perm.refl _
  | cons y ys ih =>
    cases h : strLeB x y
    · simp only [insertSorted, h, Bool.false_eq_true, if_false]
      exact (List.Perm.cons y ih).trans (List.Perm.swap x y ys)
    · simp [insertSorted, h]

theorem sortStrings_perm (l : List String) : (sortStrings l).Perm l := by
  induction l with
  | nil => exact List.Perm.refl _
  | cons y ys ih =>
    exact (insertSorted_perm y (sortStrings ys)).trans (List.Perm.cons y ih)

theorem sorted_insertSorted (x : String) (l : List String)
    (h : l.Sorted (· ≤ ·)) : (insertSorted x l).Sorted (· ≤ ·) := by
  induction l with
  | nil => simp [insertSorted]
  | cons y ys ih =>
    rcases List.pairwise_cons.mp h with ⟨hy, hys⟩
    cases hxy : strLeB x y
    · have hyx : y ≤ x := le_of_not_le ((strLeB_eq_false_iff x y).mp hxy)
      simp only [insertSorted, hxy, Bool.false_eq_true, if_false]
      refine List.pairwise_cons.mpr ⟨?_, ih hys⟩
      intro z hz
      rcases List.mem_cons.mp ((insertSorted_perm x ys).mem_iff.mp hz) with rfl | hz
      · exact hyx
      · exact hy z hz
    · have hle : x ≤ y := (strLeB_iff_le x y).mp hxy
      simp only [insertSorted, hxy, if_true]
      refine List.pairwise_cons.mpr ⟨?_, h⟩
      intro z hz
      rcases List.mem_cons.mp hz with rfl | hz
      · exact hle
      · exact hle.trans (hy z hz)

theorem sorted_sortStrings (l : List String) :
    (sortStrings l).Sorted (· ≤ ·) := by
  induction l with
  | nil => simp [sortStrings]
  | cons y ys ih => exact sorted_insertSorted y (sortStrings ys) ih

/-- Sorting is invariant under permutation of the input list: two sorted
lists that are permutations of each other are equal. -/
theorem sortStrings_eq_of_perm {l l' : List String} (h : l.Perm l') :
    sortStrings l = sortStrings l' :=
  List.eq_of_perm_of_sorted
    ((sortStrings_perm l).trans (h.trans (sortStrings_perm l').symm))
    (sorted_sortStrings l) (sorted_sortStrings l')

/-- `models.Match`. -/
structure Match where
  match_id : String
  game_type : String
  player_A_id : String
  player_B_id : String
  referee_id : String
deriving DecidableEq, Repr

/-- The fixed round-robin pairing table of `generate_schedule`:
rounds × (player-index pairs). -/
def pairings : List (List (Nat × Nat)) :=
  [[(0, 1), (2, 3)], [(0, 2), (1, 3)], [(0, 3), (1, 2)]]

/-- The body of the inner loop of `generate_schedule`: build a `Match`
for one pairing.  A Python `IndexError` on the id lists is `none`. -/
def mkMatch (ps rs : List String) (round_num match_idx : Nat) (pr : Nat × Nat) :
    Option Match := do
  let pA ← ps.get? pr.1
  let pB ← ps.get? pr.2
  let ref ← rs.get? (match_idx % rs.length)
  pure { match_id := "R" ++ toString round_num ++ "M" ++ toString (match_idx + 1)
         game_type := "even_odd", player_A_id := pA, player_B_id := pB
         referee_id := ref }

/-- One round of `generate_schedule`. -/
def mkRound (ps rs : List String) (round_num : Nat) (round_pairings : List (Nat × Nat)) :
    Option (List Match) :=
  round_pairings.enum.mapM (fun mi => mkMatch ps rs round_num mi.1 mi.2)

/-- `generate_schedule` on the already-sorted id lists stored by
`TournamentScheduler.__init__`. -/
def generate_schedule_core (ps rs : List String) : Option (List (List Match)) :=
  pairings.enum.mapM (fun rp => mkRound ps rs (rp.1 + 1) rp.2)

/-- `TournamentScheduler(player_ids, referee_ids).generate_schedule()`:
`__init__` sorts both id lists, then the pairing table is indexed. -/
def generate_schedule (player_ids referee_ids : List String) :
    Option (List (List Match)) :=
  generate_schedule_core (sortStrings player_ids) (sortStrings referee_ids)

/-- The explicit schedule produced from sorted players `x0 < x1 < x2 < x3`
and sorted referees `r0, r1`. -/
def scheduleOf (x0 x1 x2 x3 r0 r1 : String) : List (List Match) :=
  [[{ match_id := "R1M1", game_type := "even_odd", player_A_id := x0
      player_B_id := x1, referee_id := r0 },
    { match_id := "R1M2", game_type := "even_odd", player_A_id := x2
      player_B_id := x3, referee_id := r1 }],
   [{ match_id := "R2M1", game_type := "even_odd", player_A_id := x0
      player_B_id := x2, referee_id := r0 },
    { match_id := "R2M2", game_type := "even_odd", player_A_id := x1
      player_B_id := x3, referee_id := r1 }],
   [{ match_id := "R3M1", game_type := "even_odd", player_A_id := x0
      player_B_id := x3, referee_id := r0 },
    { match_id := "R3M2", game_type := "even_odd", player_A_id := x1
      player_B_id := x2, referee_id := r1 }]]

theorem generate_schedule_core_eq (x0 x1 x2 x3 r0 r1 : String) :
    generate_schedule_core [x0, x1, x2, x3] [r0, r1] =
      some (scheduleOf x0 x1 x2 x3 r0 r1) := rfl

/-- All matches of a schedule, in round order (`for round in schedule:
for match in round:`). -/
def allMatches (sched : List (List Match)) : List Match := sched.join

/-- Number of matches of a schedule that pair `x` against `y` (in either
seat order). -/
def pairCount (sched : List (List Match)) (x y : String) : Nat :=
  (allMatches sched).countP (fun m =>
    (m.player_A_id == x && m.player_B_id == y) ||
    (m.player_A_id == y && m.player_B_id == x))

/-- Number of matches of a schedule in which `x` plays. -/
def playerMatchCount (sched : List (List Match)) (x : String) : Nat :=
  (allMatches sched).countP (fun m => m.player_A_id == x || m.player_B_id == x)

theorem length_four_decomp {α : Type} {l : List α} (h : l.length = 4) :
    ∃ x0 x1 x2 x3, l = [x0, x1, x2, x3] := by
  rcases l with _ | ⟨x0, _ | ⟨x1, _ | ⟨x2, _ | ⟨x3, _ | ⟨x4, rest⟩⟩⟩⟩⟩ <;> simp at h
  exact ⟨x0, x1, x2, x3, rfl⟩

theorem sortStrings_four (a b c d : String) :
    ∃ x0 x1 x2 x3, sortStrings [a, b, c, d] = [x0, x1, x2, x3] :=
  length_four_decomp ((sortStrings_perm [a, b, c, d]).length_eq)

theorem sortStrings_two (rs : List String) (h : rs.length = 2) :
    ∃ r0 r1, sortStrings rs = [r0, r1] :=
  List.length_eq_two.mp ((sortStrings_perm rs).length_eq.trans h)

/-- C3: for any four distinct player ids and two referee ids,
`generate_schedule` succeeds and produces 3 rounds of 2 matches each; each
match pairs two distinct players of the roster; every unordered pair of
distinct roster players is paired in exactly one match (so the six match
pairings are exactly the six 2-element subsets of the roster); and every
player appears in exactly 3 matches. -/
theorem C3_generate_schedule_round_robin (a b c d : String) (rs : List String)
    (hnd : [a, b, c, d].Nodup) (hrs : rs.length = 2) :
    ∃ sched, generate_schedule [a, b, c, d] rs = some sched ∧
      sched.length = 3 ∧
      (∀ r ∈ sched, r.length = 2) ∧
      (∀ m ∈ allMatches sched,
        m.player_A_id ∈ [a, b, c, d] ∧ m.player_B_id ∈ [a, b, c, d] ∧
        m.player_A_id ≠ m.player_B_id) ∧
      (∀ x y, x ∈ [a, b, c, d] → y ∈ [a, b, c, d] → x ≠ y →
        pairCount sched x y = 1) ∧
      (∀ x ∈ [a, b, c, d], playerMatchCount sched x = 3) := by
  obtain ⟨x0, x1, x2, x3, hs⟩ := sortStrings_four a b c d
  obtain ⟨r0, r1, hr⟩ := sortStrings_two rs hrs
  have hperm : List.Perm [x0, x1, x2, x3] [a, b, c, d] :=
    hs ▸ sortStrings_perm [a, b, c, d]
  have hnd4 : [x0, x1, x2, x3].Nodup := hperm.nodup_iff.mpr hnd
  have hmem : ∀ z : String, z ∈ [a, b, c, d] ↔ z ∈ [x0, x1, x2, x3] :=
    fun z => hperm.mem_iff.symm
  have h01 : x0 ≠ x1 := by intro e; subst e; simp at hnd4
  have h02 : x0 ≠ x2 := by intro e; subst e; simp at hnd4
  have h03 : x0 ≠ x3 := by intro e; subst e; simp at hnd4
  have h12 : x1 ≠ x2 := by intro e; subst e; simp at hnd4
  have h13 : x1 ≠ x3 := by intro e; subst e; simp at hnd4
  have h23 : x2 ≠ x3 := by intro e; subst e; simp at hnd4
  refine ⟨scheduleOf x0 x1 x2 x3 r0 r1, ?_, rfl, ?_, ?_, ?_, ?_⟩
  · rw [generate_schedule, hs, hr]
    exact generate_schedule_core_eq x0 x1 x2 x3 r0 r1
  · intro r hr'
    simp only [scheduleOf, List.mem_cons, List.not_mem_nil, or_false] at hr'
    rcases hr' with rfl | rfl | rfl <;> rfl
  · intro m hm
    simp only [allMatches, scheduleOf] at hm
    simp at hm
    rcases hm with rfl | rfl | rfl | rfl | rfl | rfl
    · exact ⟨(hmem _).mpr (by simp), (hmem _).mpr (by simp), h01⟩
    · exact ⟨(hmem _).mpr (by simp), (hmem _).mpr (by simp), h23⟩
    · exact ⟨(hmem _).mpr (by simp), (hmem _).mpr (by simp), h02⟩
    · exact ⟨(hmem _).mpr (by simp), (hmem _).mpr (by simp), h13⟩
    · exact ⟨(hmem _).mpr (by simp), (hmem _).mpr (by simp), h03⟩
    · exact ⟨(hmem _).mpr (by simp), (hmem _).mpr (by simp), h12⟩
  · intro x y hx hy hxy
    rw [hmem] at hx hy
    simp only [List.mem_cons, List.mem_singleton, List.not_mem_nil, or_false] at hx hy
    rcases hx with rfl | rfl | rfl | rfl <;> rcases hy with rfl | rfl | rfl | rfl <;>
      first
        | exact absurd rfl hxy
        | simp [pairCount, allMatches, scheduleOf, h01, h02, h03, h12, h13, h23,
            Ne.symm h01, Ne.symm h02, Ne.symm h03, Ne.symm h12, Ne.symm h13,
            Ne.symm h23]
  · intro x hx
    rw [hmem] at hx
    simp only [List.mem_cons, List.mem_singleton, List.not_mem_nil, or_false] at hx
    rcases hx with rfl | rfl | rfl | rfl <;>
      simp [playerMatchCount, allMatches, scheduleOf, h01, h02, h03, h12, h13, h23,
        Ne.symm h01, Ne.symm h02, Ne.symm h03, Ne.symm h12, Ne.symm h13,
        Ne.symm h23]

/-- C3 witness: the round-robin property instantiated on the concrete
roster `P01..P04` with referees `REF01, REF02`. -/
theorem C3_generate_schedule_round_robin_witness :
    ∃ sched, generate_schedule ["P01", "P02", "P03", "P04"] ["REF01", "REF02"] =
        some sched ∧
      sched.length = 3 ∧
      (∀ r ∈ sched, r.length = 2) ∧
      (∀ m ∈ allMatches sched,
        m.player_A_id ∈ ["P01", "P02", "P03", "P04"] ∧
        m.player_B_id ∈ ["P01", "P02", "P03", "P04"] ∧
        m.player_A_id ≠ m.player_B_id) ∧
      (∀ x y, x ∈ ["P01", "P02", "P03", "P04"] → y ∈ ["P01", "P02", "P03", "P04"] →
        x ≠ y → pairCount sched x y = 1) ∧
      (∀ x ∈ ["P01", "P02", "P03", "P04"], playerMatchCount sched x = 3) :=
  C3_generate_schedule_round_robin "P01" "P02" "P03" "P04" ["REF01", "REF02"]
    (by decide) (by decide)

/-- C9: the generated schedule is invariant under any permutation of the
player id list and of the referee id list, because `__init__` sorts both
lists before the pairing table is indexed. -/
theorem C9_schedule_permutation_invariant (ps ps' rs rs' : List String)
    (hps : ps.length = 4) (hrs : rs.length = 2)
    (hp : ps.Perm ps') (hr : rs.Perm rs') :
    generate_schedule ps rs = generate_schedule ps' rs' := by
  unfold generate_schedule
  rw [sortStrings_eq_of_perm hp, sortStrings_eq_of_perm hr]

/-- C9 witness: two reorderings of the same roster give the same schedule. -/
theorem C9_schedule_permutation_invariant_witness :
    generate_schedule ["P02", "P01", "P04", "P03"] ["REF02", "REF01"] =
      generate_schedule ["P01", "P02", "P03", "P04"] ["REF01", "REF02"] :=
  C9_schedule_permutation_invariant ["P02", "P01", "P04", "P03"]
    ["P01", "P02", "P03", "P04"] ["REF02", "REF01"] ["REF01", "REF02"]
    rfl rfl (by decide) (by decide)

/-- `tuple(sorted([match.player_A_id, match.player_B_id]))`: the
normalized unordered pairing of a match. -/
def pairKey (m : Match) : String × String :=
  if strLeB m.player_A_id m.player_B_id then (m.player_A_id, m.player_B_id)
  else (m.player_B_id, m.player_A_id)

/-- Number of seat occurrences of player `p` over a match list — exactly
what the per-player counting loop of `validate_schedule` accumulates
(`player_match_count[A] += 1; player_match_count[B] += 1`). -/
def playerOccCount : List Match → String → Nat
  | [], _ => 0
  | m :: rest, p =>
    (if m.player_A_id = p then 1 else 0) + (if m.player_B_id = p then 1 else 0) +
      playerOccCount rest p

/-- The counting loop of `validate_schedule`; incrementing a key that is
not in the dict is a `KeyError` (`none`). -/
def countLoop : List Match → List (String × Nat) → Option (List (String × Nat))
  | [], counts => some counts
  | m :: rest, counts => do
    let c1 ← modifyEntry counts m.player_A_id (· + 1)
    let c2 ← modifyEntry c1 m.player_B_id (· + 1)
    countLoop rest c2

/-- The duplicate-pairing loop of `validate_schedule`: walk the matches
keeping the set of pairings seen so far; report `false` on the first
repeat. -/
def dupLoop : List Match → List (String × String) → Bool
  | [], _ => true
  | m :: rest, seen =>
    if pairKey m ∈ seen then false
    else dupLoop rest (pairKey m :: seen)

/-- `TournamentScheduler.validate_schedule`, over the scheduler's stored
(sorted) `player_ids` and its stored `schedule`.  `none` models the
`KeyError` raised when a match names a player outside `player_ids`. -/
def validate_schedule (player_ids : List String) (schedule : List (List Match)) :
    Option Bool := do
  let counts ← countLoop (allMatches schedule) (player_ids.map (fun pid => (pid, 0)))
  if counts.all (fun c => c.2 == 3) then
    some (dupLoop (allMatches schedule) [])
  else
    some false

theorem lookup_map_zero (pids : List String) (p : String) :
    (pids.map (fun pid => (pid, (0 : Nat)))).lookup p =
      if p ∈ pids then some 0 else none := by
  induction pids with
  | nil => simp
  | cons q qs ih =>
    by_cases h : p = q
    · simp [List.lookup, h]
    · simp [List.lookup, beq_eq_false_iff_ne.mpr h, h, ih]

theorem lookup_some_mem {β : Type} {l : List (String × β)} {k : String} {v : β}
    (h : l.lookup k = some v) : (k, v) ∈ l := by
  induction l with
  | nil => simp [List.lookup] at h
  | cons y rest ih =>
    obtain ⟨k', v'⟩ := y
    by_cases hk : k = k'
    · simp [List.lookup, hk] at h
      simp [hk, h]
    · simp [List.lookup, beq_eq_false_iff_ne.mpr hk] at h
      exact List.mem_cons_of_mem _ (ih h)

theorem lookup_eq_some_of_mem_nodup {β : Type} {l : List (String × β)}
    {k : String} {v : β} (hnd : (l.map Prod.fst).Nodup) (h : (k, v) ∈ l) :
    l.lookup k = some v := by
  induction l with
  | nil => simp at h
  | cons y rest ih =>
    obtain ⟨k', v'⟩ := y
    simp only [List.map_cons, List.nodup_cons] at hnd
    rcases List.mem_cons.mp h with he | hmem
    · rw [Prod.mk.injEq] at he
      simp [List.lookup, he.1, he.2]
    · have hk : ¬k = k' := by
        intro e
        exact hnd.1 (e ▸ (List.mem_map_of_mem Prod.fst hmem))
      simp [List.lookup, beq_eq_false_iff_ne.mpr hk, ih hnd.2 hmem]

theorem countLoop_spec (ms : List Match) (counts : List (String × Nat))
    (hclosed : ∀ m ∈ ms, m.player_A_id ∈ counts.map Prod.fst ∧
      m.player_B_id ∈ counts.map Prod.fst) :
    ∃ counts', countLoop ms counts = some counts' ∧
      counts'.map Prod.fst = counts.map Prod.fst ∧
      ∀ p, counts'.lookup p =
        (counts.lookup p).map (fun v => v + playerOccCount ms p) := by
  induction ms generalizing counts with
  | nil =>
    refine ⟨counts, rfl, rfl, fun p => ?_⟩
    cases h : counts.lookup p <;> simp [playerOccCount, h]
  | cons m rest ih =>
    obtain ⟨hA, hB⟩ := hclosed m (List.mem_cons_self m rest)
    obtain ⟨c1, hc1⟩ := modifyEntry_isSome_of_mem (· + 1) hA
    have hk1 := modifyEntry_keys hc1
    obtain ⟨c2, hc2⟩ := modifyEntry_isSome_of_mem (β := Nat) (· + 1) (hk1 ▸ hB)
    have hk2 := modifyEntry_keys hc2
    have hclosed2 : ∀ m' ∈ rest, m'.player_A_id ∈ c2.map Prod.fst ∧
        m'.player_B_id ∈ c2.map Prod.fst := by
      intro m' hm'
      rw [hk2, hk1]
      exact hclosed m' (List.mem_cons_of_mem m hm')
    obtain ⟨c', hc', hkeys, hlook⟩ := ih c2 hclosed2
    refine ⟨c', by simp [countLoop, hc1, hc2, hc'], by rw [hkeys, hk2, hk1], ?_⟩
    intro p
    rw [hlook p, modifyEntry_lookup hc2 p, modifyEntry_lookup hc1 p]
    by_cases hpA : p = m.player_A_id
    · by_cases hpB : p = m.player_B_id
      · have hAB : m.player_A_id = m.player_B_id := hpA.symm.trans hpB
        cases hcv : counts.lookup p <;>
          simp [playerOccCount, hpA, hpB, hcv, ← hAB, eq_comm] <;> omega
      · have hAB : ¬m.player_A_id = m.player_B_id := fun e => hpB (hpA.trans e)
        cases hcv : counts.lookup p <;>
          simp [playerOccCount, hpA, hpB, hcv, hAB, eq_comm] <;> omega
    · by_cases hpB : p = m.player_B_id
      · have hAB : ¬m.player_A_id = m.player_B_id := fun e => hpA (hpB.trans e.symm)
        cases hcv : counts.lookup p <;>
          simp [playerOccCount, hpA, hpB, hcv, hAB, eq_comm] <;> omega
      · cases hcv : counts.lookup p <;>
          simp [playerOccCount, hpA, hpB, hcv, eq_comm] <;> omega

theorem dupLoop_eq_true_iff (ms : List Match) (seen : List (String × String)) :
    dupLoop ms seen = true ↔
      (ms.map pairKey).Nodup ∧ ∀ k ∈ ms.map pairKey, k ∉ seen := by
  induction ms generalizing seen with
  | nil => simp [dupLoop]
  | cons m rest ih =>
    by_cases h : pairKey m ∈ seen
    · simp [dupLoop, h]
    · simp only [dupLoop, if_neg h, ih, List.map_cons, List.nodup_cons,
        List.mem_cons, List.mem_singleton]
      constructor
      · rintro ⟨hnd, hall⟩
        refine ⟨⟨fun hmem => (hall _ hmem (Or.inl rfl)).elim, hnd⟩, ?_⟩
        intro k hk
        rcases hk with rfl | hk
        · exact h
        · exact fun hks => hall k hk (Or.inr hks)
      · rintro ⟨⟨hpk, hnd⟩, hall⟩
        refine ⟨hnd, ?_⟩
        intro k hk hks
        rcases hks with rfl | hks
        · exact hpk hk
        · exact hall k (Or.inr hk) hks

/-- C8 counterexample: `validate_schedule` does not return `false` on
every corrupted schedule — a schedule match naming the unknown player
`"PXX"` makes the counting pass raise `KeyError` (`none`), even though
`P02`'s match count (0) differs from 3. -/
theorem C8_claim_counterexample :
    validate_schedule ["P01", "P02", "P03", "P04"]
        [[{ match_id := "R1M1", game_type := "even_odd", player_A_id := "P01"
            player_B_id := "PXX", referee_id := "REF01" }]] = none ∧
    validate_schedule ["P01", "P02", "P03", "P04"]
        [[{ match_id := "R1M1", game_type := "even_odd", player_A_id := "P01"
            player_B_id := "PXX", referee_id := "REF01" }]] ≠ some false ∧
    playerOccCount (allMatches
        [[{ match_id := "R1M1", game_type := "even_odd", player_A_id := "P01"
            player_B_id := "PXX", referee_id := "REF01" }]]) "P02" ≠ 3 := by
  decide

/-- C8 (amended): provided every player named by the schedule is one of
the scheduler's `player_ids` (otherwise the counting pass raises
`KeyError`), `validate_schedule` returns `false` whenever some pairing is
duplicated or some player's seat count differs from 3; and it returns
`true` on the schedule generated for four distinct players with two
referees. -/
theorem C8_validate_schedule_spec :
    (∀ pids sched, (∀ m ∈ allMatches sched,
        m.player_A_id ∈ pids ∧ m.player_B_id ∈ pids) →
      (¬((allMatches sched).map pairKey).Nodup ∨
        ∃ p ∈ pids, playerOccCount (allMatches sched) p ≠ 3) →
      validate_schedule pids sched = some false) ∧
    (∀ a b c d rs sched, [a, b, c, d].Nodup → rs.length = 2 →
      generate_schedule [a, b, c, d] rs = some sched →
      validate_schedule (sortStrings [a, b, c, d]) sched = some true) := by
  constructor
  · intro pids sched hclosed hcond
    have hclosed' : ∀ m ∈ allMatches sched,
        m.player_A_id ∈ (pids.map (fun pid => (pid, (0 : Nat)))).map Prod.fst ∧
        m.player_B_id ∈ (pids.map (fun pid => (pid, (0 : Nat)))).map Prod.fst := by
      intro m hm
      simpa using hclosed m hm
    obtain ⟨c', hc', hck, hclook⟩ := countLoop_spec (allMatches sched) _ hclosed'
    by_cases hall : c'.all (fun c => c.2 == 3) = true
    · rcases hcond with hdup | ⟨p, hp, hocc⟩
      · have hdl : dupLoop (allMatches sched) [] = false := by
          cases hd : dupLoop (allMatches sched) []
          · rfl
          · exact absurd ((dupLoop_eq_true_iff _ _).mp hd).1 hdup
        simp [validate_schedule, hc', hall, hdl]
      · exfalso
        have h1 : c'.lookup p = some (0 + playerOccCount (allMatches sched) p) := by
          rw [hclook p, lookup_map_zero, if_pos hp]
          rfl
        have h2 := (List.all_eq_true.mp hall) _ (lookup_some_mem h1)
        simp at h2
        omega
    · simp [validate_schedule, hc', hall]
  · intro a b c d rs sched hnd hrs hsched
    obtain ⟨x0, x1, x2, x3, hs⟩ := sortStrings_four a b c d
    obtain ⟨r0, r1, hr⟩ := sortStrings_two rs hrs
    rw [generate_schedule, hs, hr, generate_schedule_core_eq] at hsched
    obtain rfl : scheduleOf x0 x1 x2 x3 r0 r1 = sched := Option.some_inj.mp hsched
    rw [hs]
    have hperm : List.Perm [x0, x1, x2, x3] [a, b, c, d] :=
      hs ▸ sortStrings_perm [a, b, c, d]
    have hnd4 : [x0, x1, x2, x3].Nodup := hperm.nodup_iff.mpr hnd
    have h01 : x0 ≠ x1 := by intro e; subst e; simp at hnd4
    have h02 : x0 ≠ x2 := by intro e; subst e; simp at hnd4
    have h03 : x0 ≠ x3 := by intro e; subst e; simp at hnd4
    have h12 : x1 ≠ x2 := by intro e; subst e; simp at hnd4
    have h13 : x1 ≠ x3 := by intro e; subst e; simp at hnd4
    have h23 : x2 ≠ x3 := by intro e; subst e; simp at hnd4
    have hsorted : List.Sorted (· ≤ ·) [x0, x1, x2, x3] := by
      rw [← hs]; exact sorted_sortStrings [a, b, c, d]
    rcases List.pairwise_cons.mp hsorted with ⟨h0le, rest1⟩
    rcases List.pairwise_cons.mp rest1 with ⟨h1le, rest2⟩
    rcases List.pairwise_cons.mp rest2 with ⟨h2le, -⟩
    have le01 : x0 ≤ x1 := h0le _ (by simp)
    have le02 : x0 ≤ x2 := h0le _ (by simp)
    have le03 : x0 ≤ x3 := h0le _ (by simp)
    have le12 : x1 ≤ x2 := h1le _ (by simp)
    have le13 : x1 ≤ x3 := h1le _ (by simp)
    have le23 : x2 ≤ x3 := h2le _ (by simp)
    have hclosed' : ∀ m ∈ allMatches (scheduleOf x0 x1 x2 x3 r0 r1),
        m.player_A_id ∈ (([x0, x1, x2, x3].map (fun pid => (pid, (0 : Nat)))).map
          Prod.fst) ∧
        m.player_B_id ∈ (([x0, x1, x2, x3].map (fun pid => (pid, (0 : Nat)))).map
          Prod.fst) := by
      intro m hm
      simp [allMatches, scheduleOf] at hm
      rcases hm with rfl | rfl | rfl | rfl | rfl | rfl <;> simp
    obtain ⟨c', hc', hck, hclook⟩ :=
      countLoop_spec (allMatches (scheduleOf x0 x1 x2 x3 r0 r1)) _ hclosed'
    have hckl : c'.map Prod.fst = [x0, x1, x2, x3] := by
      rw [hck]; simp
    have hall : c'.all (fun c => c.2 == 3) = true := by
      rw [List.all_eq_true]
      rintro ⟨k, v⟩ hkv
      have hkmem : k ∈ [x0, x1, x2, x3] := by
        rw [← hckl]
        exact List.mem_map_of_mem Prod.fst hkv
      have hndc : (c'.map Prod.fst).Nodup := by
        rw [hckl]
        simp [h01, h02, h03, h12, h13, h23]
      have hlv : c'.lookup k = some v := lookup_eq_some_of_mem_nodup hndc hkv
      have h2 : c'.lookup k =
          some (0 + playerOccCount (allMatches (scheduleOf x0 x1 x2 x3 r0 r1)) k) := by
        rw [hclook k, lookup_map_zero, if_pos hkmem]
        rfl
      have hv : v = playerOccCount (allMatches (scheduleOf x0 x1 x2 x3 r0 r1)) k := by
        rw [hlv] at h2
        simpa using h2
      simp only [List.mem_cons, List.mem_singleton, List.not_mem_nil, or_false] at hkmem
      rcases hkmem with rfl | rfl | rfl | rfl <;>
        simp [hv, allMatches, scheduleOf, playerOccCount,
          h01, h02, h03, h12, h13, h23, Ne.symm h01, Ne.symm h02, Ne.symm h03,
          Ne.symm h12, Ne.symm h13, Ne.symm h23]
    have pkgen : ∀ (mid gt p q rid : String), p ≤ q →
        pairKey ⟨mid, gt, p, q, rid⟩ = (p, q) := by
      intro mid gt p q rid hpq
      show (if strLeB p q then (p, q) else (q, p)) = (p, q)
      rw [(strLeB_iff_le p q).mpr hpq, if_pos rfl]
    have hmap : (allMatches (scheduleOf x0 x1 x2 x3 r0 r1)).map pairKey =
        [(x0, x1), (x2, x3), (x0, x2), (x1, x3), (x0, x3), (x1, x2)] := by
      show [pairKey ⟨"R1M1", "even_odd", x0, x1, r0⟩,
        pairKey ⟨"R1M2", "even_odd", x2, x3, r1⟩,
        pairKey ⟨"R2M1", "even_odd", x0, x2, r0⟩,
        pairKey ⟨"R2M2", "even_odd", x1, x3, r1⟩,
        pairKey ⟨"R3M1", "even_odd", x0, x3, r0⟩,
        pairKey ⟨"R3M2", "even_odd", x1, x2, r1⟩] = _
      rw [pkgen _ _ _ _ _ le01, pkgen _ _ _ _ _ le23, pkgen _ _ _ _ _ le02,
        pkgen _ _ _ _ _ le13, pkgen _ _ _ _ _ le03, pkgen _ _ _ _ _ le12]
    have hdup : dupLoop (allMatches (scheduleOf x0 x1 x2 x3 r0 r1)) [] = true := by
      rw [dupLoop_eq_true_iff, hmap]
      constructor
      · simp [Prod.ext_iff, h01, h02, h03, h12, h13, h23, Ne.symm h01, Ne.symm h02,
          Ne.symm h03, Ne.symm h12, Ne.symm h13, Ne.symm h23]
      · simp
    have hc2 : countLoop (allMatches (scheduleOf x0 x1 x2 x3 r0 r1))
        [(x0, 0), (x1, 0), (x2, 0), (x3, 0)] = some c' := by
      simpa using hc'
    simp [validate_schedule, hc2, hall, hdup]

/-- C8 witness: a duplicated pairing is rejected, and the generated
schedule for `P01..P04` validates. -/
theorem C8_validate_schedule_spec_witness :
    validate_schedule ["P01", "P02"]
        [[{ match_id := "R1M1", game_type := "even_odd", player_A_id := "P01"
            player_B_id := "P02", referee_id := "REF01" },
          { match_id := "R1M2", game_type := "even_odd", player_A_id := "P01"
            player_B_id := "P02", referee_id := "REF02" }]] = some false ∧
    validate_schedule (sortStrings ["P01", "P02", "P03", "P04"])
        (scheduleOf "P01" "P02" "P03" "P04" "REF01" "REF02") = some true :=
  ⟨C8_validate_schedule_spec.1 ["P01", "P02"] _ (by decide) (by decide),
    C8_validate_schedule_spec.2 "P01" "P02" "P03" "P04" ["REF01", "REF02"] _
      (by decide) (by decide) rfl⟩

/-! ## Registration gate (`league-manager/registration.py`) -/

/-- `models.RegistrationRequest`. -/
structure RegistrationRequest where
  display_name : String
  version : String
  game_types : List String
  contact_endpoint : String
  max_concurrent_matches : Nat
deriving DecidableEq, Repr

/-- `models.Participant`; the `datetime` timestamp is kept as an opaque
string. -/
structure Participant where
  participant_id : String
  display_name : String
  contact_endpoint : String
  auth_token : String
  registered_at : String
deriving DecidableEq, Repr

/-- `models.RegistrationResponse`. -/
structure RegistrationResponse where
  status : String
  participant_id : String
  auth_token : String
deriving DecidableEq, Repr

/-- The mutable state of a `RegistrationManager`: the two participant
dicts (insertion-ordered) and the two counters. -/
structure RegState where
  referees : List (String × Participant)
  players : List (String × Participant)
  referee_count : Nat
  player_count : Nat
deriving DecidableEq, Repr

/-- `RegistrationManager.__init__`. -/
def initRegState : RegState :=
  { referees := [], players := [], referee_count := 0, player_count := 0 }

/-- Python `f"{n:02d}"` for the small counters used here. -/
def format02 (n : Nat) : String :=
  if n < 10 then "0" ++ toString n else toString n

/-- `RegistrationManager.register_referee` (max 2).  The generated token
and the `datetime.now()` timestamp are nondeterministic and passed in. -/
def register_referee (st : RegState) (request : RegistrationRequest)
    (token time : String) : Option RegistrationResponse × RegState :=
  if st.referee_count ≥ 2 then (none, st)
  else
    let referee_id := "REF" ++ format02 (st.referee_count + 1)
    let participant : Participant :=
      { participant_id := referee_id, display_name := request.display_name
        contact_endpoint := request.contact_endpoint, auth_token := token
        registered_at := time }
    (some { status := "ACCEPTED", participant_id := referee_id, auth_token := token },
      { st with referee_count := st.referee_count + 1
                referees := st.referees ++ [(referee_id, participant)] })

/-- `RegistrationManager.register_player` (max 4). -/
def register_player (st : RegState) (request : RegistrationRequest)
    (token time : String) : Option RegistrationResponse × RegState :=
  if st.player_count ≥ 4 then (none, st)
  else
    let player_id := "P" ++ format02 (st.player_count + 1)
    let participant : Participant :=
      { participant_id := player_id, display_name := request.display_name
        contact_endpoint := request.contact_endpoint, auth_token := token
        registered_at := time }
    (some { status := "ACCEPTED", participant_id := player_id, auth_token := token },
      { st with player_count := st.player_count + 1
                players := st.players ++ [(player_id, participant)] })

/-- A registration request arriving at the manager (with the token and
timestamp its processing will draw). -/
inductive RegEvent where
  | refereeReg (request : RegistrationRequest) (token time : String)
  | playerReg (request : RegistrationRequest) (token time : String)
deriving DecidableEq, Repr

/-- State transition of one registration request. -/
def regStep (st : RegState) : RegEvent → RegState
  | .refereeReg req tok t => (register_referee st req tok t).2
  | .playerReg req tok t => (register_player st req tok t).2

/-- The manager state after processing a sequence of registration
requests from a fresh `RegistrationManager`. -/
def runSeq (events : List RegEvent) : RegState := events.foldl regStep initRegState

def isRefereeReg : RegEvent → Bool
  | .refereeReg .. => true
  | .playerReg .. => false

/-- How many referee registrations were attempted in a sequence. -/
def refAttempts (events : List RegEvent) : Nat := events.countP isRefereeReg

/-- How many player registrations were attempted in a sequence. -/
def playerAttempts (events : List RegEvent) : Nat :=
  events.countP (fun e => !isRefereeReg e)

theorem runSeq_invariant (events : List RegEvent) :
    (runSeq events).referee_count = min (refAttempts events) 2 ∧
    (runSeq events).player_count = min (playerAttempts events) 4 ∧
    (runSeq events).referees.map Prod.fst =
      (List.range (min (refAttempts events) 2)).map
        (fun i => "REF" ++ format02 (i + 1)) ∧
    (runSeq events).players.map Prod.fst =
      (List.range (min (playerAttempts events) 4)).map
        (fun i => "P" ++ format02 (i + 1)) := by
  induction events using List.reverseRecOn with
  | nil => simp [runSeq, initRegState, refAttempts, playerAttempts]
  | append_singleton es e ih =>
    obtain ⟨ihr, ihp, ihrl, ihpl⟩ := ih
    have hrun : runSeq (es ++ [e]) = regStep (runSeq es) e := by
      simp [runSeq, List.foldl_append]
    cases e with
    | refereeReg req tok t =>
      have hra : refAttempts (es ++ [RegEvent.refereeReg req tok t]) =
          refAttempts es + 1 := by
        simp [refAttempts, List.countP_append, isRefereeReg]
      have hpa : playerAttempts (es ++ [RegEvent.refereeReg req tok t]) =
          playerAttempts es := by
        simp [playerAttempts, List.countP_append, isRefereeReg]
      rw [hrun, hra, hpa]
      by_cases hfull : (runSeq es).referee_count ≥ 2
      · have hstep : regStep (runSeq es) (RegEvent.refereeReg req tok t) = runSeq es := by
          simp [regStep, register_referee, hfull]
        have hm : min (refAttempts es + 1) 2 = min (refAttempts es) 2 := by
          rw [ihr] at hfull
          omega
        rw [hstep, hm]
        exact ⟨ihr, ihp, ihrl, ihpl⟩
      · have hn : min (refAttempts es) 2 = refAttempts es := by
          rw [ihr] at hfull
          omega
        have hlt : refAttempts es < 2 := by
          rw [ihr, hn] at hfull
          omega
        simp only [regStep, register_referee, if_neg hfull]
        refine ⟨?_, ihp, ?_, ihpl⟩
        · rw [ihr, hn]
          omega
        · have hm1 : min (refAttempts es + 1) 2 = refAttempts es + 1 := by omega
          rw [List.map_append, ihrl, hn, hm1, List.range_succ, List.map_append, ihr, hn]
          simp
    | playerReg req tok t =>
      have hra : refAttempts (es ++ [RegEvent.playerReg req tok t]) =
          refAttempts es := by
        simp [refAttempts, List.countP_append, isRefereeReg]
      have hpa : playerAttempts (es ++ [RegEvent.playerReg req tok t]) =
          playerAttempts es + 1 := by
        simp [playerAttempts, List.countP_append, isRefereeReg]
      rw [hrun, hra, hpa]
      by_cases hfull : (runSeq es).player_count ≥ 4
      · have hstep : regStep (runSeq es) (RegEvent.playerReg req tok t) = runSeq es := by
          simp [regStep, register_player, hfull]
        have hm : min (playerAttempts es + 1) 4 = min (playerAttempts es) 4 := by
          rw [ihp] at hfull
          omega
        rw [hstep, hm]
        exact ⟨ihr, ihp, ihrl, ihpl⟩
      · have hn : min (playerAttempts es) 4 = playerAttempts es := by
          rw [ihp] at hfull
          omega
        have hlt : playerAttempts es < 4 := by
          rw [ihp, hn] at hfull
          omega
        simp only [regStep, register_player, if_neg hfull]
        refine ⟨ihr, ?_, ihrl, ?_⟩
        · rw [ihp, hn]
          omega
        · have hm1 : min (playerAttempts es + 1) 4 = playerAttempts es + 1 := by omega
          rw [List.map_append, ihpl, hn, hm1, List.range_succ, List.map_append, ihp, hn]
          simp

/-- C6: after any sequence of registration requests, the counters hold
`min(attempts, limit)` (so rejected attempts — the 3rd referee attempt,
the 5th player attempt — never mutate them), the stored participant maps
hold exactly the sequentially assigned ids `REF01, REF02` / `P01..P04`
in registration order, and once the limit is reached any further
registration returns no response and leaves the state — counters and
maps — completely unchanged. -/
theorem C6_registration_spec (events : List RegEvent) :
    (runSeq events).referee_count = min (refAttempts events) 2 ∧
    (runSeq events).player_count = min (playerAttempts events) 4 ∧
    (runSeq events).referees.map Prod.fst =
      (List.range (min (refAttempts events) 2)).map
        (fun i => "REF" ++ format02 (i + 1)) ∧
    (runSeq events).players.map Prod.fst =
      (List.range (min (playerAttempts events) 4)).map
        (fun i => "P" ++ format02 (i + 1)) ∧
    (∀ req tok t, refAttempts events ≥ 2 →
      register_referee (runSeq events) req tok t = (none, runSeq events)) ∧
    (∀ req tok t, playerAttempts events ≥ 4 →
      register_player (runSeq events) req tok t = (none, runSeq events)) := by
  obtain ⟨h1, h2, h3, h4⟩ := runSeq_invariant events
  refine ⟨h1, h2, h3, h4, ?_, ?_⟩
  · intro req tok t h
    have hge : (runSeq events).referee_count ≥ 2 := by
      rw [h1]
      omega
    simp [register_referee, hge]
  · intro req tok t h
    have hge : (runSeq events).player_count ≥ 4 := by
      rw [h2]
      omega
    simp [register_player, hge]

/-- C6 witness: after two accepted referee registrations the ids are
`REF01, REF02` and the third referee attempt is rejected with the state
unchanged. -/
theorem C6_registration_spec_witness :
    (runSeq
        [RegEvent.refereeReg
          { display_name := "Ref A", version := "1.0", game_types := ["even_odd"]
            contact_endpoint := "http://a", max_concurrent_matches := 1 } "tokA" "dA",
         RegEvent.refereeReg
          { display_name := "Ref B", version := "1.0", game_types := ["even_odd"]
            contact_endpoint := "http://b", max_concurrent_matches := 1 } "tokB" "dB"]).referees.map
      Prod.fst = ["REF01", "REF02"] ∧
    register_referee (runSeq
        [RegEvent.refereeReg
          { display_name := "Ref A", version := "1.0", game_types := ["even_odd"]
            contact_endpoint := "http://a", max_concurrent_matches := 1 } "tokA" "dA",
         RegEvent.refereeReg
          { display_name := "Ref B", version := "1.0", game_types := ["even_odd"]
            contact_endpoint := "http://b", max_concurrent_matches := 1 } "tokB" "dB"])
      { display_name := "Ref C", version := "1.0", game_types := ["even_odd"]
        contact_endpoint := "http://c", max_concurrent_matches := 1 } "tokC" "dC" =
      (none, runSeq
        [RegEvent.refereeReg
          { display_name := "Ref A", version := "1.0", game_types := ["even_odd"]
            contact_endpoint := "http://a", max_concurrent_matches := 1 } "tokA" "dA",
         RegEvent.refereeReg
          { display_name := "Ref B", version := "1.0", game_types := ["even_odd"]
            contact_endpoint := "http://b", max_concurrent_matches := 1 } "tokB" "dB"]) :=
  ⟨by rw [(C6_registration_spec _).2.2.1]; decide,
    (C6_registration_spec _).2.2.2.2.1
      { display_name := "Ref C", version := "1.0", game_types := ["even_odd"]
        contact_endpoint := "http://c", max_concurrent_matches := 1 } "tokC" "dC"
      (by decide)⟩

example :
    (calculate_match_result "P01" "odd" "P02" "ODD" 4).winner = none := by decide

example :
    (calculate_match_result "P01" "odd" "P02" "even" 4).winner = some "P02" := by decide

example :
    (calculate_match_result "P01" "even" "P02" "odd" 7).score = [("P01", 0), ("P02", 3)] := by
  decide

example :
    (handle_player_timeout "P01" "P02" true false).winner = some "P01" := by decide

end OddEven
